import Mathlib

/-!
Shallow embedding of `src/consumers/consumer_hansen.py`.

The module defines four operations: `init_db` ((re)creates the
`streamed_messages` table in a SQLite store), `read_message` (parses a JSON
file and returns a single record), `process_message` (normalizes a record and
inserts it as a row), and `update_visualization` (an unbounded loop whose body
re-reads a newline-delimited JSON log, groups records by author, and draws the
per-author mean sentiment).

Modelling conventions:
* JSON values are the inductive `Json`; Python floats are idealized as `ℚ`
  (every numeric claim here is exact).
* Python dicts decoded from JSON are association lists; lookup takes the
  first match (decoded dicts have unique keys).
* File-system and database effects are abstracted into explicit inputs: a
  `FileState` describes what opening and parsing the input file would yield,
  and a `DbOutcome` describes whether the SQLite interaction inside a `try`
  block succeeds or raises.
* A Python function that can raise to its caller is embedded as a function
  into `Except PyExn _`; an exception caught inside the function body simply
  never surfaces as `.error`.
* Python `len` is total on str/list/dict and raises `TypeError` otherwise
  (`pyLen`); dictionary keys must be hashable, and numeric keys compare
  equal across int/float/bool (`toKey`).
-/

/-- JSON values as decoded by `json.load` / `json.loads`. -/
inductive Json where
  | null : Json
  | bool (b : Bool) : Json
  | num (q : ℚ) : Json
  | str (s : String) : Json
  | arr (xs : List Json) : Json
  | obj (kvs : List (String × Json)) : Json

/-- Exceptions that the embedded code can raise or catch. -/
inductive PyExn where
  | fileNotFound : PyExn
  | permissionError : PyExn
  | jsonDecodeError : PyExn
  | typeError : PyExn
  | attributeError : PyExn
  | storeError : PyExn
deriving DecidableEq

/-- A decoded JSON object, i.e. a Python dict produced by the JSON parser. -/
abbrev JRecord := List (String × Json)

/-- Python `d.get(k, default)` on a decoded JSON object. -/
def jsonGet (kvs : JRecord) (k : String) (d : Json) : Json :=
  ((kvs.find? (fun p => decide (p.1 = k))).map Prod.snd).getD d

/-- Python truthiness of a decoded JSON value (`if message:`). -/
def pyTruthy : Json → Bool
  | .null => false
  | .bool b => b
  | .num q => decide (q ≠ 0)
  | .str s => decide (s ≠ "")
  | .arr xs => !xs.isEmpty
  | .obj kvs => !kvs.isEmpty

/-- Python `len` on a decoded JSON value: defined on str/list/dict, raises
`TypeError` otherwise. -/
def pyLen : Json → Except PyExn Nat
  | .str s => .ok s.length
  | .arr xs => .ok xs.length
  | .obj kvs => .ok kvs.length
  | _ => .error .typeError

/-- Hashable decoded-JSON values, usable as Python dict keys. Python compares
`True == 1 == 1.0`, so booleans collapse into numbers. -/
inductive JKey where
  | null : JKey
  | num (q : ℚ) : JKey
  | str (s : String) : JKey
deriving DecidableEq

/-- The dict key denoted by a decoded JSON value: `none` when the value is
unhashable (a list or a dict), in which case indexing raises `TypeError`. -/
def toKey : Json → Option JKey
  | .null => some .null
  | .bool b => some (.num (if b then 1 else 0))
  | .num q => some (.num q)
  | .str s => some (.str s)
  | .arr _ => none
  | .obj _ => none

/-- Sum of one `int`/`float`/`bool` decoded value into a running total;
`none` when the value is non-numeric (Python `sum` raises `TypeError`). -/
def pyNum : Json → Option ℚ
  | .num q => some q
  | .bool b => some (if b then 1 else 0)
  | _ => none

/-- Python `sum`: left fold from an accumulator, raising `TypeError` at the
first non-numeric element. -/
def pySum : ℚ → List Json → Except PyExn ℚ
  | acc, [] => .ok acc
  | acc, j :: rest =>
    match pyNum j with
    | some q => pySum (acc + q) rest
    | none => .error .typeError

/-!
The message reader (`read_message`, consumer_hansen.py lines 183-200).

Opening and JSON-parsing `DATA_FILE` is abstracted as a `FileState`. The
`except` clause of `read_message` names exactly `json.JSONDecodeError` and
`FileNotFoundError`; any other I/O error raised by `open` (modelled here by
`noPermission`, e.g. `PermissionError`) is not caught.
-/

/-- Outcome of opening and JSON-parsing the input file. -/
inductive FileState where
  | missing : FileState
  | noPermission : FileState
  | malformed : FileState
  | parsed (j : Json) : FileState

/-- Embedding of `read_message`: returns the parsed dict itself, the last
element of a non-empty parsed list, or `none`; catches only
`FileNotFoundError` and `json.JSONDecodeError`. -/
def read_message : FileState → Except PyExn (Option Json)
  | .missing => .ok none
  | .noPermission => .error .permissionError
  | .malformed => .ok none
  | .parsed (.obj kvs) => .ok (some (.obj kvs))
  | .parsed (.arr xs) => .ok xs.getLast?
  | .parsed _ => .ok none

/-!
The store (`init_db` lines 141-177, `process_message` lines 206-250).

A `Store` is the state of the SQLite file: `table = none` means the
`streamed_messages` table does not exist, otherwise it holds the rows in
insertion order. A `DbOutcome` says whether the database interaction inside
the function's `try` block succeeds; on failure the exception is caught by
`except Exception` and logged, never re-raised.
-/

/-- One row of the `streamed_messages` table (minus the autoincrement id). -/
structure Row where
  message : Json
  author : Json
  timestamp : Json
  category : Json
  sentiment : Json
  keyword_mentioned : Json
  message_length : Nat

/-- State of the SQLite database file. -/
structure Store where
  table : Option (List Row)

/-- Outcome of the SQLite interaction attempted inside a `try` block:
success, failure before any statement ran, or (for `init_db`) failure after
the `DROP TABLE` but before the `CREATE TABLE`. -/
inductive DbOutcome where
  | ok : DbOutcome
  | failEarly : DbOutcome
  | failAfterDrop : DbOutcome

/-- Embedding of `init_db`: `DROP TABLE IF EXISTS` then `CREATE TABLE`,
with every exception caught and logged (`except Exception`), so the call
never raises. -/
def init_db : DbOutcome → Store → Except PyExn Store
  | .ok, _ => .ok ⟨some []⟩
  | .failEarly, s => .ok s
  | .failAfterDrop, _ => .ok ⟨none⟩

/-- The row built by `process_message` from a record `kvs`, the current
wall-clock string `now`, and the precomputed `message_length` value `n`. -/
def rowOf (now : String) (kvs : JRecord) (n : Nat) : Row :=
  ⟨jsonGet kvs "message" (.str ""),
   jsonGet kvs "author" (.str "Unknown"),
   jsonGet kvs "timestamp" (.str now),
   jsonGet kvs "category" (.str "other"),
   jsonGet kvs "sentiment" (.num 0),
   jsonGet kvs "keyword_mentioned" .null,
   n⟩

/-- Embedding of `process_message`: the field extraction and
`message_length = len(text)` run before the `try` block, so a non-dict
argument raises `AttributeError` and an unsized `message` value raises
`TypeError`, both propagating to the caller; the SQLite insert itself runs
inside `try`/`except Exception`, so store errors are swallowed. -/
def process_message (o : DbOutcome) (now : String) (msg : Json) (s : Store) :
    Except PyExn Store :=
  match msg with
  | .obj kvs =>
    match pyLen (jsonGet kvs "message" (.str "")) with
    | .error e => .error e
    | .ok n =>
      match o, s.table with
      | .ok, some rows => .ok ⟨some (rows ++ [rowOf now kvs n])⟩
      | .ok, none => .ok s
      | .failEarly, _ => .ok s
      | .failAfterDrop, _ => .ok s
  | _ => .error .attributeError

/-- A sequence of `process_message` calls (outcome, wall-clock, record)
threaded through the store, stopping at the first propagated exception. -/
def runInserts : List (DbOutcome × String × Json) → Store → Except PyExn Store
  | [], s => .ok s
  | (o, now, m) :: rest, s =>
    match process_message o now m s with
    | .error e => .error e
    | .ok s1 => runInserts rest s1

/-!
One aggregation pass of `update_visualization` (lines 102-117): the loop body
reads the log as newline-delimited JSON records, then folds over them
building `message_count : defaultdict(int)` and `sentiments :
defaultdict(list)` keyed by author, and finally computes
`average_sentiment = sum(sentiments[a]) / count` per author.
Each already-parsed line is modelled as a `JRecord`.
-/

/-- The two per-author maps built by the aggregation loop, as
insertion-ordered association lists (Python dicts preserve insertion order
and have unique keys). -/
structure AggState where
  message_count : List (JKey × Nat)
  sentiments : List (JKey × List Json)

/-- Lookup in an insertion-ordered association list. -/
def jlookup {α : Type} (l : List (JKey × α)) (k : JKey) : Option α :=
  (l.find? (fun p => decide (p.1 = k))).map Prod.snd

/-- Defaultdict update `d[k] = f(d.get(k, dflt))`: updates the entry when the
key is present (dict keys are unique, so the first occurrence is the entry),
otherwise appends a fresh entry built from the default, preserving dict
insertion order. -/
def updEntry {α : Type} : List (JKey × α) → JKey → α → (α → α) → List (JKey × α)
  | [], k, dflt, f => [(k, f dflt)]
  | (k1, v) :: rest, k, dflt, f =>
    if k1 = k then (k1, f v) :: rest else (k1, v) :: updEntry rest k dflt f

/-- One iteration of the aggregation loop body on record `m`:
`message_count[author] += 1` and `sentiments[author].append(sentiment)`;
an unhashable author raises `TypeError` (caught by the outer handler of
`update_visualization`, ending the pass). -/
def aggStep (st : AggState) (m : JRecord) : Except PyExn AggState :=
  match toKey (jsonGet m "author" (.str "Unknown")) with
  | none => .error .typeError
  | some k =>
    .ok ⟨updEntry st.message_count k 0 (fun c => c + 1),
         updEntry st.sentiments k [] (fun l => l ++ [jsonGet m "sentiment" (.num 0)])⟩

/-- The aggregation loop over all records, from a given state. -/
def aggPass (st : AggState) : List JRecord → Except PyExn AggState
  | [] => .ok st
  | m :: rest =>
    match aggStep st m with
    | .error e => .error e
    | .ok st1 => aggPass st1 rest

/-- One full aggregation pass of `update_visualization` over the parsed
lines of the log file, from empty maps. -/
def aggregate (data : List JRecord) : Except PyExn AggState :=
  aggPass ⟨[], []⟩ data

/-- The `average_sentiment` entry that the dict comprehension produces for
author `k`: present exactly when `k` is a key of `message_count`, and equal
to `sum(sentiments[k]) / count` (the comprehension reads `sentiments[k]`
through the defaultdict, so a missing key yields `[]`). -/
def average_sentiment (st : AggState) (k : JKey) : Option (Except PyExn ℚ) :=
  (jlookup st.message_count k).map
    (fun c => (pySum 0 ((jlookup st.sentiments k).getD [])).map (fun q => q / (c : ℚ)))

/-- Records of `data` whose author field (defaulted to "Unknown") denotes the
key `k`. -/
def recordsOf (data : List JRecord) (k : JKey) : List JRecord :=
  data.filter (fun m => decide (toKey (jsonGet m "author" (.str "Unknown")) = some k))

/-- Number of records of `data` with author key `k`. -/
def countAuthor (data : List JRecord) (k : JKey) : Nat :=
  (recordsOf data k).length

/-- The sentiment values (defaulted to 0) of the records of `data` with
author key `k`, in order. -/
def sentimentsOf (data : List JRecord) (k : JKey) : List Json :=
  (recordsOf data k).map (fun m => jsonGet m "sentiment" (.num 0))

/-!
The process entry point (lines 253-265): `init_db(DB_PATH)`, then
`message = read_message()`, then `process_message(message)` when `message`
is truthy and an error log otherwise, then `update_visualization(DATA_FILE)`.
-/

/-- Observable actions of the `__main__` block, in order. -/
inductive MainAction where
  | initDb : MainAction
  | readMsg : MainAction
  | logNoMessage : MainAction
  | processMsg (j : Json) : MainAction
  | visualize : MainAction

/-- Embedding of the `__main__` block: the sequence of actions it performs
and the exception it propagates, if any. `fs` is the state of the input
file, `o1`/`o2` the outcomes of the two database interactions, `now` the
wall clock, `s` the initial store state. -/
def mainTrace (fs : FileState) (o1 o2 : DbOutcome) (now : String) (s : Store) :
    List MainAction × Option PyExn :=
  match init_db o1 s with
  | .error e => ([.initDb], some e)
  | .ok s1 =>
    match read_message fs with
    | .error e => ([.initDb, .readMsg], some e)
    | .ok mo =>
      let mj := mo.getD .null
      if pyTruthy mj then
        match process_message o2 now mj s1 with
        | .ok _ => ([.initDb, .readMsg, .processMsg mj, .visualize], none)
        | .error e => ([.initDb, .readMsg, .processMsg mj], some e)
      else
        ([.initDb, .readMsg, .logNoMessage, .visualize], none)

/-- How a run of the aggregation loop extends a `message_count` lookup: an
existing count grows by the number of matching records processed, and a
missing key appears exactly when that number is positive. -/
def addCount : Option Nat → Nat → Option Nat
  | some c, n => some (c + n)
  | none, n => if n = 0 then none else some n

/-- How a run of the aggregation loop extends a `sentiments` lookup: an
existing list is extended by the matching sentiment values, and a missing
key appears exactly when there are any. -/
def appendSent : Option (List Json) → List Json → Option (List Json)
  | some l0, l => some (l0 ++ l)
  | none, l => if l.isEmpty then none else some l

/-- Invariant tying the two aggregation maps together: entries correspond
pairwise with equal keys, every count is at least 1, and each sentiment list
has exactly its author's count as length. -/
def AggInv (st : AggState) : Prop :=
  List.Forall₂ (fun (p : JKey × Nat) (q : JKey × List Json) =>
    p.1 = q.1 ∧ 1 ≤ p.2 ∧ q.2.length = p.2) st.message_count st.sentiments

/-!
Theorems.
-/

/-- Claim C5: if the input file parses to a single JSON object, read_message
returns exactly that object, unchanged. -/
theorem C5_single_object_returned (kvs : JRecord) :
    read_message (.parsed (.obj kvs)) = .ok (some (.obj kvs)) := rfl

/-- Claim C4: if the input file parses to a non-empty JSON array,
read_message returns the last element of that array; if the file is missing,
unparsable as JSON, or parses to an empty array, read_message returns null. -/
theorem C4_array_and_error_cases :
    (∀ (xs : List Json) (l : Json), xs.getLast? = some l →
        read_message (.parsed (.arr xs)) = .ok (some l)) ∧
    read_message .missing = .ok none ∧
    read_message .malformed = .ok none ∧
    read_message (.parsed (.arr [])) = .ok none := by
  refine ⟨fun xs l h => ?_, rfl, rfl, rfl⟩
  simp [read_message, h]

/-- Witness for C4 at the concrete array `[null, bool true]`. -/
theorem C4_array_and_error_cases_witness :
    read_message (.parsed (.arr [.null, .bool true])) = .ok (some (.bool true)) :=
  C4_array_and_error_cases.1 [.null, .bool true] (.bool true) rfl

/-- Counterexample to claim C1: an I/O error other than a missing file
(e.g. `PermissionError` from `open`) is not in `read_message`'s `except`
clause, so it propagates to the caller instead of being suppressed. -/
theorem C1_counterexample :
    read_message .noPermission = .error .permissionError := rfl

/-- Claim C1, amended: init_db never propagates an exception;
process_message propagates no I/O, parse, or store error (the only
exceptions it can propagate are a TypeError or AttributeError raised by the
field extraction before its try block); read_message catches file-not-found
and JSON parse errors, returning null, but other I/O errors propagate. -/
theorem C1_error_containment_amended :
    (∀ (o : DbOutcome) (s : Store), ∃ s1, init_db o s = .ok s1) ∧
    (∀ (o : DbOutcome) (now : String) (msg : Json) (s : Store) (e : PyExn),
      process_message o now msg s = .error e →
      e = .typeError ∨ e = .attributeError) ∧
    (∀ fs : FileState, fs ≠ .noPermission → ∃ r, read_message fs = .ok r) := by
  refine ⟨fun o s => ?_, fun o now msg s e h => ?_, fun fs h => ?_⟩
  · cases o <;> exact ⟨_, rfl⟩
  · cases msg with
    | obj kvs =>
      simp only [process_message] at h
      cases hg : jsonGet kvs "message" (.str "") <;> rw [hg] at h <;>
        simp only [pyLen] at h
      case null => exact Or.inl (Except.error.inj h).symm
      case bool => exact Or.inl (Except.error.inj h).symm
      case num => exact Or.inl (Except.error.inj h).symm
      all_goals cases o <;> rcases hs : s.table with _ | rows <;>
        rw [hs] at h <;> simp at h
    | null => exact Or.inr (Except.error.inj h).symm
    | bool b => exact Or.inr (Except.error.inj h).symm
    | num q => exact Or.inr (Except.error.inj h).symm
    | str t => exact Or.inr (Except.error.inj h).symm
    | arr xs => exact Or.inr (Except.error.inj h).symm
  · cases fs with
    | missing => exact ⟨none, rfl⟩
    | noPermission => exact absurd rfl h
    | malformed => exact ⟨none, rfl⟩
    | parsed j => cases j <;> exact ⟨_, rfl⟩

/-- Witness for C1 (amended) at concrete inputs: a successful init_db call,
a process_message call that raises TypeError (message field is a number,
which is not an I/O, parse, or store error), and a read_message call on a
missing file. -/
theorem C1_error_containment_amended_witness :
    (∃ s1, init_db .ok ⟨none⟩ = .ok s1) ∧
    (PyExn.typeError = .typeError ∨ PyExn.typeError = .attributeError) ∧
    (∃ r, read_message .missing = .ok r) :=
  ⟨C1_error_containment_amended.1 .ok ⟨none⟩,
   C1_error_containment_amended.2.1 .ok "t" (.obj [("message", .num 5)])
     ⟨some []⟩ .typeError rfl,
   C1_error_containment_amended.2.2 .missing (fun hc => nomatch hc)⟩

/-- Claim C2: for every input message record whose message field is a string
or absent, the message_length value stored by process_message equals the
character count of that string (the empty string if absent), regardless of
any message_length value present in the input record. -/
theorem C2_message_length_recomputed (now : String) (kvs : JRecord)
    (rows : List Row) (t : String)
    (h : jsonGet kvs "message" (.str "") = .str t) :
    ∃ r : Row,
      process_message .ok now (.obj kvs) ⟨some rows⟩ = .ok ⟨some (rows ++ [r])⟩ ∧
      r.message_length = t.length := by
  refine ⟨rowOf now kvs t.length, ?_, rfl⟩
  simp only [process_message]
  rw [h]
  simp [pyLen]

/-- Witness for C2: a record carrying a bogus message_length of 42 still
stores message_length 2 for the two-character message "hi". -/
theorem C2_message_length_recomputed_witness :
    ∃ r : Row,
      process_message .ok "t"
          (.obj [("message", .str "hi"), ("message_length", .num 42)])
          ⟨some []⟩ = .ok ⟨some ([] ++ [r])⟩ ∧
      r.message_length = "hi".length :=
  C2_message_length_recomputed "t"
    [("message", .str "hi"), ("message_length", .num 42)] [] "hi" rfl

/-- Claim C3: for every input message record lacking the sentiment,
category, author, or keyword_mentioned field, process_message stores the
defaults 0, "other", "Unknown", and null respectively for the missing
fields. -/
theorem C3_missing_field_defaults (now : String) (kvs : JRecord)
    (rows : List Row) (t : String)
    (hm : jsonGet kvs "message" (.str "") = .str t) :
    ∃ r : Row,
      process_message .ok now (.obj kvs) ⟨some rows⟩ = .ok ⟨some (rows ++ [r])⟩ ∧
      (kvs.find? (fun p => decide (p.1 = "sentiment")) = none → r.sentiment = .num 0) ∧
      (kvs.find? (fun p => decide (p.1 = "category")) = none → r.category = .str "other") ∧
      (kvs.find? (fun p => decide (p.1 = "author")) = none → r.author = .str "Unknown") ∧
      (kvs.find? (fun p => decide (p.1 = "keyword_mentioned")) = none →
        r.keyword_mentioned = .null) := by
  refine ⟨rowOf now kvs t.length, ?_, ?_, ?_, ?_, ?_⟩
  · simp only [process_message]
    rw [hm]
    simp [pyLen]
  all_goals intro hnone
  · simp [rowOf, jsonGet, hnone]
  · simp [rowOf, jsonGet, hnone]
  · simp [rowOf, jsonGet, hnone]
  · simp [rowOf, jsonGet, hnone]

/-- Witness for C3: a record with only a message field gets sentiment 0,
category "other", author "Unknown" and keyword_mentioned null. -/
theorem C3_missing_field_defaults_witness :
    ∃ r : Row,
      process_message .ok "t" (.obj [("message", .str "hi")]) ⟨some []⟩ =
        .ok ⟨some ([] ++ [r])⟩ ∧
      r.sentiment = .num 0 ∧ r.category = .str "other" ∧
      r.author = .str "Unknown" ∧ r.keyword_mentioned = .null := by
  obtain ⟨r, h1, h2, h3, h4, h5⟩ :=
    C3_missing_field_defaults "t" [("message", .str "hi")] [] "hi" rfl
  exact ⟨r, h1, h2 rfl, h3 rfl, h4 rfl, h5 rfl⟩

/-- Claim C6: init_db always drops any pre-existing streamed_messages table
before creating a new empty one, so after any two consecutive calls to
init_db (with any row insertions in between) the table contains zero rows. -/
theorem C6_init_db_drops_and_recreates :
    (∀ s : Store, init_db .ok s = .ok ⟨some []⟩) ∧
    (∀ (s s1 s2 : Store) (ops : List (DbOutcome × String × Json)),
      init_db .ok s = .ok s1 → runInserts ops s1 = .ok s2 →
      ∃ s3 : Store, init_db .ok s2 = .ok s3 ∧ s3.table = some ([] : List Row)) :=
  ⟨fun _ => rfl, fun _ _ _ _ _ _ => ⟨⟨some []⟩, rfl, rfl⟩⟩

/-- Witness for C6: starting from a store holding one row, an init_db call,
one successful insertion, and a second init_db call leave zero rows. -/
theorem C6_init_db_drops_and_recreates_witness :
    ∃ s3 : Store,
      init_db .ok ⟨some [rowOf "t" [] 0]⟩ = .ok s3 ∧
      s3.table = some ([] : List Row) :=
  C6_init_db_drops_and_recreates.2 ⟨some [rowOf "t" [] 0]⟩ ⟨some []⟩
    ⟨some [rowOf "t" [] 0]⟩ [(.ok, "t", .obj [])] rfl rfl

/-- Counterexample to claim C8: when the input file holds the empty JSON
object, read_message returns a message (one is present), yet the entry point
inserts nothing and takes the no-message error branch rather than inserting
the message it read. -/
theorem C8_counterexample :
    read_message (.parsed (.obj [])) = .ok (some (.obj [])) ∧
    mainTrace (.parsed (.obj [])) .ok .ok "t" ⟨some []⟩ =
      ([.initDb, .readMsg, .logNoMessage, .visualize], none) := ⟨rfl, rfl⟩

/-- Claim C8, amended: on direct invocation the entry point initializes the
store, reads one message, inserts it if one is present and truthy (logging
an error and inserting nothing if it is absent or falsy), and — when the
insertion call returns normally — then enters the visualization loop. -/
theorem C8_entry_sequence_amended (fs : FileState) (o1 o2 : DbOutcome)
    (now : String) (s : Store) (r : Option Json)
    (h : read_message fs = .ok r) :
    (pyTruthy (r.getD .null) = false →
      mainTrace fs o1 o2 now s =
        ([.initDb, .readMsg, .logNoMessage, .visualize], none)) ∧
    (pyTruthy (r.getD .null) = true →
      ∀ s1 s2 : Store, init_db o1 s = .ok s1 →
      process_message o2 now (r.getD .null) s1 = .ok s2 →
      mainTrace fs o1 o2 now s =
        ([.initDb, .readMsg, .processMsg (r.getD .null), .visualize], none)) := by
  constructor
  · intro hf
    unfold mainTrace
    rcases ho : init_db o1 s with e | s1
    · cases o1 <;> simp [init_db] at ho
    · rw [h]
      simp [hf]
  · intro ht s1 s2 hinit hproc
    unfold mainTrace
    rw [hinit, h]
    simp [ht, hproc]

/-- Witness for C8 (amended) on a missing input file: read_message returns
null, and the trace takes the error branch then visualizes. -/
theorem C8_entry_sequence_amended_witness :
    mainTrace .missing .ok .ok "t" ⟨some []⟩ =
      ([.initDb, .readMsg, .logNoMessage, .visualize], none) :=
  (C8_entry_sequence_amended .missing .ok .ok "t" ⟨some []⟩ none rfl).1 rfl

/-- Claim C10: if read_message returns a falsy message — in particular the
empty JSON object — the entry point treats it as absent: it inserts no row
and takes the no-message error branch, even though a record was successfully
read. -/
theorem C10_falsy_message_treated_as_absent (o1 o2 : DbOutcome)
    (now : String) (s : Store) :
    read_message (.parsed (.obj [])) = .ok (some (.obj [])) ∧
    mainTrace (.parsed (.obj [])) o1 o2 now s =
      ([.initDb, .readMsg, .logNoMessage, .visualize], none) := by
  refine ⟨rfl, ?_⟩
  unfold mainTrace
  rcases ho : init_db o1 s with e | s1
  · cases o1 <;> simp [init_db] at ho
  · rfl

/-- Lookup into a cons cell of an association list. -/
theorem jlookup_cons {α : Type} (k1 : JKey) (v : α) (l : List (JKey × α))
    (k : JKey) :
    jlookup ((k1, v) :: l) k = if k1 = k then some v else jlookup l k := by
  by_cases h : k1 = k
  · subst h
    simp [jlookup, List.find?_cons_of_pos]
  · simp [jlookup, List.find?_cons_of_neg, h]

/-- After a defaultdict update at key k, looking up k yields the updated
value. -/
theorem jlookup_updEntry_self {α : Type} (l : List (JKey × α)) (k : JKey)
    (dflt : α) (f : α → α) :
    jlookup (updEntry l k dflt f) k = some (f ((jlookup l k).getD dflt)) := by
  induction l with
  | nil => simp [updEntry, jlookup_cons, jlookup]
  | cons x rest ih =>
    rcases x with ⟨k1, v⟩
    by_cases h : k1 = k
    · subst h
      simp [updEntry, jlookup_cons]
    · simp [updEntry, h, jlookup_cons, ih]

/-- A defaultdict update at key k leaves lookups at other keys unchanged. -/
theorem jlookup_updEntry_other {α : Type} (l : List (JKey × α)) (k k2 : JKey)
    (dflt : α) (f : α → α) (hne : k2 ≠ k) :
    jlookup (updEntry l k dflt f) k2 = jlookup l k2 := by
  induction l with
  | nil => simp [updEntry, jlookup_cons, jlookup, Ne.symm hne]
  | cons x rest ih =>
    rcases x with ⟨k1, v⟩
    by_cases h : k1 = k
    · subst h
      simp [updEntry, jlookup_cons, Ne.symm hne]
    · simp [updEntry, h, jlookup_cons, ih]

/-- Unfolding of countAuthor over a cons of records. -/
theorem countAuthor_cons (m : JRecord) (rest : List JRecord) (k : JKey) :
    countAuthor (m :: rest) k =
      (if toKey (jsonGet m "author" (.str "Unknown")) = some k then 1 else 0) +
        countAuthor rest k := by
  by_cases h : toKey (jsonGet m "author" (.str "Unknown")) = some k
  · simp [countAuthor, recordsOf, h, Nat.add_comm]
  · simp [countAuthor, recordsOf, h]

/-- Unfolding of sentimentsOf over a cons of records. -/
theorem sentimentsOf_cons (m : JRecord) (rest : List JRecord) (k : JKey) :
    sentimentsOf (m :: rest) k =
      (if toKey (jsonGet m "author" (.str "Unknown")) = some k
        then [jsonGet m "sentiment" (.num 0)] else []) ++ sentimentsOf rest k := by
  by_cases h : toKey (jsonGet m "author" (.str "Unknown")) = some k
  · simp [sentimentsOf, recordsOf, h]
  · simp [sentimentsOf, recordsOf, h]

/-- Absorbing one new record into an addCount extension. -/
theorem addCount_succ (o : Option Nat) (n : Nat) :
    addCount o (1 + n) = addCount (some (o.getD 0 + 1)) n := by
  rcases o with _ | c <;>
    simp [addCount, Nat.add_comm, Nat.add_assoc, Nat.add_left_comm]

/-- Absorbing one new record into an appendSent extension. -/
theorem appendSent_cons (o : Option (List Json)) (v : Json) (l : List Json) :
    appendSent o ([v] ++ l) = appendSent (some (o.getD [] ++ [v])) l := by
  rcases o with _ | l0 <;> simp [appendSent]

/-- Running the aggregation loop extends each message_count lookup by the
number of records processed with that author key. -/
theorem aggPass_count (data : List JRecord) :
    ∀ (st st2 : AggState) (k : JKey), aggPass st data = .ok st2 →
      jlookup st2.message_count k =
        addCount (jlookup st.message_count k) (countAuthor data k) := by
  induction data with
  | nil =>
    intro st st2 k h
    simp only [aggPass] at h
    obtain rfl : st = st2 := by simpa using h
    rcases hl : jlookup st.message_count k with _ | c <;>
      simp [addCount, countAuthor, recordsOf, hl]
  | cons m rest ih =>
    intro st st2 k h
    simp only [aggPass] at h
    rcases hstep : aggStep st m with e | st1 <;> simp only [hstep] at h
    · exact absurd h (by simp)
    · simp only [aggStep] at hstep
      rcases hkey : toKey (jsonGet m "author" (.str "Unknown")) with _ | k1 <;>
        simp only [hkey] at hstep
      · exact absurd hstep (by simp)
      · obtain rfl : st1 =
            ⟨updEntry st.message_count k1 0 (fun c => c + 1),
             updEntry st.sentiments k1 []
               (fun l => l ++ [jsonGet m "sentiment" (.num 0)])⟩ := by
          cases hstep
          rfl
        have hrest := ih _ st2 k h
        rw [countAuthor_cons, hkey]
        by_cases hkk : k1 = k
        · subst hkk
          rw [jlookup_updEntry_self] at hrest
          rw [if_pos rfl, addCount_succ]
          exact hrest
        · rw [jlookup_updEntry_other _ _ _ _ _ (Ne.symm hkk)] at hrest
          simp [hrest, hkk]

/-- Running the aggregation loop extends each sentiments lookup by the
sentiment values of the records processed with that author key. -/
theorem aggPass_sent (data : List JRecord) :
    ∀ (st st2 : AggState) (k : JKey), aggPass st data = .ok st2 →
      jlookup st2.sentiments k =
        appendSent (jlookup st.sentiments k) (sentimentsOf data k) := by
  induction data with
  | nil =>
    intro st st2 k h
    simp only [aggPass] at h
    obtain rfl : st = st2 := by simpa using h
    rcases hl : jlookup st.sentiments k with _ | l <;>
      simp [appendSent, sentimentsOf, recordsOf, hl]
  | cons m rest ih =>
    intro st st2 k h
    simp only [aggPass] at h
    rcases hstep : aggStep st m with e | st1 <;> simp only [hstep] at h
    · exact absurd h (by simp)
    · simp only [aggStep] at hstep
      rcases hkey : toKey (jsonGet m "author" (.str "Unknown")) with _ | k1 <;>
        simp only [hkey] at hstep
      · exact absurd hstep (by simp)
      · obtain rfl : st1 =
            ⟨updEntry st.message_count k1 0 (fun c => c + 1),
             updEntry st.sentiments k1 []
               (fun l => l ++ [jsonGet m "sentiment" (.num 0)])⟩ := by
          cases hstep
          rfl
        have hrest := ih _ st2 k h
        rw [sentimentsOf_cons, hkey]
        by_cases hkk : k1 = k
        · subst hkk
          rw [jlookup_updEntry_self] at hrest
          rw [if_pos rfl, appendSent_cons]
          exact hrest
        · rw [jlookup_updEntry_other _ _ _ _ _ (Ne.symm hkk)] at hrest
          simp [hrest, hkk]

/-- A Forall₂ relation grants, for each member of the left list, a related
member of the right list. -/
theorem forall2_mem_left {α β : Type} {R : α → β → Prop} :
    ∀ {l1 : List α} {l2 : List β}, List.Forall₂ R l1 l2 →
      ∀ a ∈ l1, ∃ b ∈ l2, R a b := by
  intro l1 l2 h
  induction h with
  | nil => intro a ha; cases ha
  | cons hR htl ih =>
    intro a ha
    rcases List.mem_cons.mp ha with rfl | ha2
    · exact ⟨_, List.mem_cons_self _ _, hR⟩
    · obtain ⟨b, hb, hRb⟩ := ih a ha2
      exact ⟨b, List.mem_cons_of_mem _ hb, hRb⟩

/-- The paired defaultdict updates performed by one aggregation step
preserve the correspondence between the two maps. -/
theorem updEntry_inv {counts : List (JKey × Nat)} {sents : List (JKey × List Json)}
    (k : JKey) (v : Json)
    (h : List.Forall₂ (fun (p : JKey × Nat) (q : JKey × List Json) =>
      p.1 = q.1 ∧ 1 ≤ p.2 ∧ q.2.length = p.2) counts sents) :
    List.Forall₂ (fun (p : JKey × Nat) (q : JKey × List Json) =>
      p.1 = q.1 ∧ 1 ≤ p.2 ∧ q.2.length = p.2)
      (updEntry counts k 0 (fun c => c + 1))
      (updEntry sents k [] (fun l => l ++ [v])) := by
  induction h with
  | nil => simp [updEntry]
  | cons hR htl ih =>
    rename_i p q l1 l2
    rcases p with ⟨k1, c⟩
    rcases q with ⟨k2, l⟩
    obtain ⟨hk12, hc, hlen⟩ := hR
    dsimp only at hk12
    subst hk12
    by_cases hkk : k1 = k
    · subst hkk
      have hg1 : updEntry ((k1, c) :: l1) k1 0 (fun c => c + 1) =
          (k1, c + 1) :: l1 := by
        simp [updEntry]
      have hg2 : updEntry ((k1, l) :: l2) k1 [] (fun l => l ++ [v]) =
          (k1, l ++ [v]) :: l2 := by
        simp [updEntry]
      rw [hg1, hg2]
      exact List.Forall₂.cons ⟨rfl, by omega, by simp [hlen]⟩ htl
    · simp only [updEntry]
      rw [if_neg hkk, if_neg hkk]
      exact List.Forall₂.cons ⟨rfl, hc, hlen⟩ ih

/-- The aggregation loop preserves the invariant tying the two maps. -/
theorem aggPass_inv (data : List JRecord) :
    ∀ st st2 : AggState, aggPass st data = .ok st2 → AggInv st → AggInv st2 := by
  induction data with
  | nil =>
    intro st st2 h hinv
    simp only [aggPass] at h
    obtain rfl : st = st2 := by simpa using h
    exact hinv
  | cons m rest ih =>
    intro st st2 h hinv
    simp only [aggPass] at h
    rcases hstep : aggStep st m with e | st1 <;> simp only [hstep] at h
    · exact absurd h (by simp)
    · simp only [aggStep] at hstep
      rcases hkey : toKey (jsonGet m "author" (.str "Unknown")) with _ | k1 <;>
        simp only [hkey] at hstep
      · exact absurd hstep (by simp)
      · obtain rfl : st1 =
            ⟨updEntry st.message_count k1 0 (fun c => c + 1),
             updEntry st.sentiments k1 []
               (fun l => l ++ [jsonGet m "sentiment" (.num 0)])⟩ := by
          cases hstep
          rfl
        exact ih _ st2 h (updEntry_inv k1 _ hinv)

/-- Claim C9: in every aggregation pass of update_visualization, each author
appearing as a key in the per-author count map has count at least 1 and a
sentiment list of exactly that length, so the per-author mean computation
never divides by zero. -/
theorem C9_counts_positive_no_div_by_zero (data : List JRecord) (st : AggState)
    (hagg : aggregate data = .ok st) :
    ∀ p ∈ st.message_count, 1 ≤ p.2 ∧ ((p.2 : ℚ) ≠ 0) ∧
      ∃ q ∈ st.sentiments, q.1 = p.1 ∧ q.2.length = p.2 := by
  intro p hp
  have hinv : AggInv st := aggPass_inv data ⟨[], []⟩ st hagg List.Forall₂.nil
  obtain ⟨q, hq, hk, hc, hlen⟩ := forall2_mem_left hinv p hp
  exact ⟨hc, Nat.cast_ne_zero.mpr (by omega), q, hq, hk.symm, hlen⟩

/-- Witness for C9 on the two-record example: author "A" has count 2, a
nonzero rational denominator, and a two-element sentiment list. -/
theorem C9_counts_positive_no_div_by_zero_witness :
    1 ≤ 2 ∧ (((2:ℕ) : ℚ) ≠ 0) ∧
      ∃ q ∈ [(JKey.str "A", [Json.num 1, Json.num 0])],
        q.1 = JKey.str "A" ∧ q.2.length = 2 :=
  C9_counts_positive_no_div_by_zero
    [[("author", Json.str "A"), ("sentiment", Json.num 1)],
     [("author", Json.str "A"), ("sentiment", Json.num 0)]]
    ⟨[(JKey.str "A", 2)], [(JKey.str "A", [Json.num 1, Json.num 0])]⟩
    rfl (JKey.str "A", 2) (by simp)

/-- Claim C7: one aggregation pass of update_visualization computes, per
author, the count of that author's records and the arithmetic mean of their
sentiment values (sum over count). -/
theorem C7_per_author_count_and_mean (data : List JRecord) (st : AggState)
    (k : JKey) (total : ℚ)
    (hagg : aggregate data = .ok st)
    (hcnt : 0 < countAuthor data k)
    (hsum : pySum 0 (sentimentsOf data k) = .ok total) :
    jlookup st.message_count k = some (countAuthor data k) ∧
    jlookup st.sentiments k = some (sentimentsOf data k) ∧
    average_sentiment st k =
      some (.ok (total / (countAuthor data k : ℚ))) := by
  have h1 := aggPass_count data ⟨[], []⟩ st k hagg
  have h2 := aggPass_sent data ⟨[], []⟩ st k hagg
  have hne : countAuthor data k ≠ 0 := Nat.pos_iff_ne_zero.mp hcnt
  have hnil : sentimentsOf data k ≠ [] := by
    intro he
    have : countAuthor data k = 0 := by
      simpa [sentimentsOf, countAuthor, recordsOf] using congrArg List.length he
    exact hne this
  have hc0 : addCount (jlookup (AggState.mk [] []).message_count k)
      (countAuthor data k) = some (countAuthor data k) := by
    simp [jlookup, addCount, hne]
  have hs0 : appendSent (jlookup (AggState.mk [] []).sentiments k)
      (sentimentsOf data k) = some (sentimentsOf data k) := by
    simp [jlookup, appendSent, hnil]
  rw [hc0] at h1
  rw [hs0] at h2
  refine ⟨h1, h2, ?_⟩
  simp [average_sentiment, h1, h2, hsum, Except.map]

/-- Witness for C7 on the example of the claim: two records by author "A"
with sentiments 1.0 and 0.0 give count 2 and mean sentiment 1/2. -/
theorem C7_per_author_count_and_mean_witness :
    jlookup (AggState.mk [(JKey.str "A", 2)]
        [(JKey.str "A", [Json.num 1, Json.num 0])]).message_count
      (JKey.str "A") = some 2 ∧
    jlookup (AggState.mk [(JKey.str "A", 2)]
        [(JKey.str "A", [Json.num 1, Json.num 0])]).sentiments
      (JKey.str "A") = some [Json.num 1, Json.num 0] ∧
    average_sentiment (AggState.mk [(JKey.str "A", 2)]
        [(JKey.str "A", [Json.num 1, Json.num 0])])
      (JKey.str "A") = some (.ok ((1 : ℚ) / ((2 : ℕ) : ℚ))) := by
  have h := C7_per_author_count_and_mean
    [[("author", Json.str "A"), ("sentiment", Json.num 1)],
     [("author", Json.str "A"), ("sentiment", Json.num 0)]]
    ⟨[(JKey.str "A", 2)], [(JKey.str "A", [Json.num 1, Json.num 0])]⟩
    (JKey.str "A") 1 rfl (by decide)
    (by show pySum 0 [Json.num 1, Json.num 0] = Except.ok 1
        simp [pySum, pyNum])
  rwa [show countAuthor
        [[("author", Json.str "A"), ("sentiment", Json.num 1)],
         [("author", Json.str "A"), ("sentiment", Json.num 0)]]
        (JKey.str "A") = 2 from rfl,
      show sentimentsOf
        [[("author", Json.str "A"), ("sentiment", Json.num 1)],
         [("author", Json.str "A"), ("sentiment", Json.num 0)]]
        (JKey.str "A") = [Json.num 1, Json.num 0] from rfl] at h
